import Mathlib

/-!
# RingTonic_Go job-orchestration core: a shallow embedding

This file embeds the job-orchestration core of the RingTonic Go backend
(`internal/store/store.go`, `internal/jobs/jobs.go`, `internal/api/handlers.go`)
as executable Lean definitions and proves properties of the spec against them.

Modelling conventions:
* The SQLite store is modelled as an explicit `StoreState` value threaded
  through every operation.  The store is assumed healthy: SQL statements do
  not fail for infrastructure reasons (the only modelled failure is the
  `jobs.id` PRIMARY KEY violation on `INSERT`).
* `time.Now()` / SQL `CURRENT_TIMESTAMP` are modelled by a logical clock
  (`StoreState.clock`) that ticks on every mutating statement.
* `time.Duration` values are nanosecond counts modelled as `Nat`
  (`time.Second = 1000000000`); the shift `1 << (attempt-1)` with
  `attempt ≤ 3` is far below the `int64` range, so `Nat` arithmetic agrees
  with Go's.
* The JSON payload marshalled in `CreateJob` is modelled structurally
  (`N8NPayload`) rather than as the literal JSON string: `json.Marshal` is
  injective on these fields and no property depends on the byte syntax.
* `map[string]interface{}` callback metadata is modelled by the two keys the
  code reads: `duration` (a JSON number, already truncated to `Int` as Go's
  `int(d)` does) and `error` (a string).
* The goroutine `go m.triggerN8NWorkflow(...)` and the HTTP callback handler
  run concurrently against the shared store; their individual store writes
  are modelled as atomic events (`Event`) and a reachable state is the fold
  of any event sequence from the empty store.
-/

namespace RingTonic

/-- Status constant `store.StatusQueued`. -/
def StatusQueued : String := "queued"

/-- Status constant `store.StatusProcessing`. -/
def StatusProcessing : String := "processing"

/-- Status constant `store.StatusCompleted`. -/
def StatusCompleted : String := "completed"

/-- Status constant `store.StatusFailed`. -/
def StatusFailed : String := "failed"

/-- `store.JobOptions`: processing options for a job. -/
structure JobOptions where
  startSeconds : Option Int
  durationSeconds : Option Int
  fadeIn : Bool
  fadeOut : Bool
  format : String
deriving Repr, DecidableEq

/-- The `n8n` dispatch payload built in `Manager.CreateJob`, modelled
structurally (the Go code stores `json.Marshal` of exactly these fields). -/
structure N8NPayload where
  jobID : String
  sourceURL : String
  options : JobOptions
  callbackURL : String
deriving Repr, DecidableEq

/-- `store.Job`: a row of the `jobs` table. -/
structure Job where
  id : String
  sourceURL : String
  userID : Option String
  status : String
  createdAt : Nat
  updatedAt : Nat
  attempts : Nat
  n8nPayload : Option N8NPayload
  errorMessage : Option String
deriving Repr, DecidableEq

/-- `store.Ringtone`: a row of the `ringtones` table. -/
structure Ringtone where
  id : Nat
  jobID : String
  fileName : String
  filePath : String
  format : String
  durationSeconds : Option Int
  createdAt : Nat
deriving Repr, DecidableEq

/-- The SQLite database state: the `jobs` and `ringtones` tables, the
`AUTOINCREMENT` counter for `ringtones.id`, and the logical clock standing
for `CURRENT_TIMESTAMP` / `time.Now()`. -/
structure StoreState where
  jobs : List Job
  ringtones : List Ringtone
  nextRingtoneID : Nat
  clock : Nat
deriving Repr, DecidableEq

/-- The empty database right after `Store.Migrate` (AUTOINCREMENT starts
handing out ids at 1). -/
def initialStore : StoreState :=
  { jobs := [], ringtones := [], nextRingtoneID := 1, clock := 0 }

namespace store

/-- `Store.CreateJob`: `INSERT INTO jobs ...`.  Fails exactly when the
PRIMARY KEY `id` is already present. -/
def createJob (s : StoreState) (job : Job) : Except String StoreState :=
  match s.jobs.find? (fun j => j.id == job.id) with
  | some _ => .error "UNIQUE constraint failed: jobs.id"
  | none =>
      .ok { s with jobs := s.jobs ++ [job], clock := s.clock + 1 }

/-- `Store.GetJob`: `SELECT ... FROM jobs WHERE id = ?` via `QueryRow`
(first matching row, `nil` when no row matches). -/
def getJob (s : StoreState) (id : String) : Option Job :=
  s.jobs.find? (fun j => j.id == id)

/-- `Store.UpdateJobStatus`:
`UPDATE jobs SET status = ?, updated_at = CURRENT_TIMESTAMP, error_message = ? WHERE id = ?`.
Note the statement always overwrites `error_message`, also with NULL. -/
def updateJobStatus (s : StoreState) (id status : String)
    (errorMessage : Option String) : StoreState :=
  { s with
    jobs := s.jobs.map (fun j =>
      if j.id == id then
        { j with status := status, updatedAt := s.clock, errorMessage := errorMessage }
      else j),
    clock := s.clock + 1 }

/-- `Store.IncrementJobAttempts`:
`UPDATE jobs SET attempts = attempts + 1, updated_at = CURRENT_TIMESTAMP WHERE id = ?`. -/
def incrementJobAttempts (s : StoreState) (id : String) : StoreState :=
  { s with
    jobs := s.jobs.map (fun j =>
      if j.id == id then
        { j with attempts := j.attempts + 1, updatedAt := s.clock }
      else j),
    clock := s.clock + 1 }

/-- `Store.CreateRingtone`: `INSERT INTO ringtones ...`; the fresh
AUTOINCREMENT id is written back into the record (`ringtone.ID`).  The
`job_id` FOREIGN KEY is not re-checked here because the only caller
(`handleCompletedCallback`, behind `HandleCallback`) has already looked the
job up. -/
def createRingtone (s : StoreState) (ringtone : Ringtone) :
    StoreState × Ringtone :=
  let inserted := { ringtone with id := s.nextRingtoneID }
  ({ s with
      ringtones := s.ringtones ++ [inserted],
      nextRingtoneID := s.nextRingtoneID + 1,
      clock := s.clock + 1 },
   inserted)

/-- `Store.GetRingtoneByJobID`: `SELECT ... FROM ringtones WHERE job_id = ?`
via `QueryRow` (first matching row in insertion order, `nil` when none). -/
def getRingtoneByJobID (s : StoreState) (jobID : String) : Option Ringtone :=
  s.ringtones.find? (fun r => r.jobID == jobID)

end store

/-- All `ringtones` rows owned by a job, in insertion order. -/
def ringtonesOf (s : StoreState) (jobID : String) : List Ringtone :=
  s.ringtones.filter (fun r => r.jobID == jobID)

/-- The stored status of a job, if the job row exists. -/
def statusOf (s : StoreState) (jobID : String) : Option String :=
  (store.getJob s jobID).map (fun j => j.status)

namespace jobs

/-- `jobs.CreateJobRequest`. -/
structure CreateJobRequest where
  sourceURL : String
  userID : Option String
  options : Option JobOptions
deriving Repr, DecidableEq

/-- `jobs.CreateJobResponse`. -/
structure CreateJobResponse where
  jobID : String
  status : String
  pollURL : String
deriving Repr, DecidableEq

/-- `jobs.JobStatusResponse`. -/
structure JobStatusResponse where
  jobID : String
  status : String
  createdAt : Nat
  updatedAt : Nat
  downloadURL : Option String
  error : Option String
deriving Repr, DecidableEq

/-- The callback metadata fields `HandleCallback` actually reads from the
`map[string]interface{}`: `metadata["duration"]` (a JSON number, kept here
already truncated to `Int` as Go's `int(d)` truncates the `float64`) and
`metadata["error"]` (a string). -/
structure Metadata where
  duration : Option Int
  error : Option String
deriving Repr, DecidableEq

/-- `jobs.CallbackRequest`: the n8n callback payload. -/
structure CallbackRequest where
  jobID : String
  status : String
  filePath : Option String
  metadata : Metadata
deriving Repr, DecidableEq

/-- The hard-coded callback address in `Manager.CreateJob`. -/
def callbackURL : String := "http://backend:8080/api/v1/n8n-callback"

/-- Option defaulting in `Manager.CreateJob`: a `nil` options object becomes
the zero object with format `"mp3"`, and an empty format string is replaced
by `"mp3"`. -/
def defaultedOptions (options : Option JobOptions) : JobOptions :=
  match options with
  | none =>
      { startSeconds := none, durationSeconds := none,
        fadeIn := false, fadeOut := false, format := "mp3" }
  | some o => if o.format == "" then { o with format := "mp3" } else o

/-- The `n8nPayload` map built in `Manager.CreateJob`. -/
def payloadOf (jobID : String) (req : CreateJobRequest) : N8NPayload :=
  { jobID := jobID, sourceURL := req.sourceURL,
    options := defaultedOptions req.options, callbackURL := callbackURL }

/-- The `store.Job` row built in `Manager.CreateJob` (`clock` is the
`time.Now()` at creation). -/
def newJob (clock : Nat) (jobID : String) (req : CreateJobRequest) : Job :=
  { id := jobID, sourceURL := req.sourceURL, userID := req.userID,
    status := StatusQueued, createdAt := clock, updatedAt := clock,
    attempts := 0, n8nPayload := some (payloadOf jobID req),
    errorMessage := none }

/-- `Manager.CreateJob`: default the options, build the dispatch payload,
insert the job row (`status = queued`, `attempts = 0`), and return the
response handle.  The dispatch payload is returned to the caller to stand
for the argument of the spawned goroutine `go m.triggerN8NWorkflow(...)`;
no dispatch attempt happens inside this function. -/
def CreateJob (s : StoreState) (jobID : String) (req : CreateJobRequest) :
    Except String (CreateJobResponse × StoreState × N8NPayload) :=
  match store.createJob s (newJob s.clock jobID req) with
  | .error e => .error ("failed to create job in database: " ++ e)
  | .ok s1 =>
      .ok ({ jobID := jobID, status := StatusQueued,
             pollURL := "/api/v1/job-status/" ++ jobID }, s1, payloadOf jobID req)

/-- `const maxAttempts = 3` in `triggerN8NWorkflow`. -/
def maxAttempts : Nat := 3

/-- `const baseDelay = time.Second` in nanoseconds. -/
def baseDelay : Nat := 1000000000

/-- The backoff computed at jobs.go:164:
`delay := baseDelay * time.Duration(1<<(attempt-1))`. -/
def backoff (attempt : Nat) : Nat := baseDelay * (1 <<< (attempt - 1))

/-- The error message written on retry exhaustion (jobs.go:156); the
wrapped dispatch-client error text is abstracted to a fixed suffix. -/
def failureMessage : String :=
  "Failed to trigger n8n after 3 attempts: webhook error"

/-- One observable action of the dispatch-retry loop, in order. -/
inductive DispatchAction where
  | increment
  | webhookCall (ok : Bool)
  | sleep (d : Nat)
  | writeStatus (status : String) (errorMessage : Option String)
deriving Repr, DecidableEq

/-- The body of the retry loop of `triggerN8NWorkflow`, recursing on the
number of remaining attempts (`rem + attempt = maxAttempts + 1` at every
call).  `webhook attempt` is the success of the single `TriggerWebhook`
call made on that attempt.  Returns the final store plus the trace of
actions performed. -/
def triggerLoopAux (webhook : Nat → Bool) (jobID : String) :
    Nat → Nat → StoreState → StoreState × List DispatchAction
  | 0, _, s => (s, [])
  | rem + 1, attempt, s =>
      let s1 := store.incrementJobAttempts s jobID
      if webhook attempt then
        (store.updateJobStatus s1 jobID StatusProcessing none,
         [.increment, .webhookCall true, .writeStatus StatusProcessing none])
      else if rem == 0 then
        (store.updateJobStatus s1 jobID StatusFailed (some failureMessage),
         [.increment, .webhookCall false,
          .writeStatus StatusFailed (some failureMessage)])
      else
        let next := triggerLoopAux webhook jobID rem (attempt + 1) s1
        (next.1,
         .increment :: .webhookCall false :: .sleep (backoff attempt) :: next.2)

/-- `Manager.triggerN8NWorkflow`: the dispatch-retry loop, starting at
attempt 1 with the full budget of `maxAttempts`. -/
def triggerN8NWorkflow (webhook : Nat → Bool) (jobID : String)
    (s : StoreState) : StoreState × List DispatchAction :=
  triggerLoopAux webhook jobID maxAttempts 1 s

/-- The sleep durations of a dispatch trace, in order. -/
def sleepsOf : List DispatchAction → List Nat
  | [] => []
  | .sleep d :: rest => d :: sleepsOf rest
  | _ :: rest => sleepsOf rest

/-- The number of webhook calls (dispatch attempts) in a dispatch trace. -/
def webhookCallsOf : List DispatchAction → Nat
  | [] => 0
  | .webhookCall _ :: rest => webhookCallsOf rest + 1
  | _ :: rest => webhookCallsOf rest

/-- `Manager.GetJobStatus`: a read-only projection of the stored job; the
store is returned unchanged, mirroring that the Go method only issues
SELECT statements. -/
def GetJobStatus (s : StoreState) (jobID : String) :
    Except String JobStatusResponse × StoreState :=
  match store.getJob s jobID with
  | none => (.error "job not found", s)
  | some job =>
      let response : JobStatusResponse :=
        { jobID := job.id, status := job.status, createdAt := job.createdAt,
          updatedAt := job.updatedAt, downloadURL := none,
          error := job.errorMessage }
      if job.status == StatusCompleted then
        match store.getRingtoneByJobID s jobID with
        | some ringtone =>
            (.ok { response with
                    downloadURL := some ("/download/" ++ ringtone.fileName) }, s)
        | none => (.ok response, s)
      else (.ok response, s)

/-- The `store.Ringtone` record built in `handleCompletedCallback`
(`clock` is the `time.Now()` of the insert; the `ID` field is filled in by
the store). -/
def callbackRingtone (clock : Nat) (req : CallbackRequest) (fp : String) :
    Ringtone :=
  { id := 0, jobID := req.jobID, fileName := fp, filePath := fp,
    format := "mp3", durationSeconds := req.metadata.duration,
    createdAt := clock }

/-- `Manager.handleCompletedCallback`: require `file_path`, insert the
ringtone row (format hard-coded to `"mp3"`), then set the job status to
completed. -/
def handleCompletedCallback (s : StoreState) (req : CallbackRequest) :
    Except String StoreState :=
  match req.filePath with
  | none => .error "file_path is required for completed status"
  | some fp =>
      let s1 := (store.createRingtone s (callbackRingtone s.clock req fp)).1
      .ok (store.updateJobStatus s1 req.jobID StatusCompleted none)

/-- The error message extracted from the callback metadata in
`handleFailedCallback` (generic fallback when absent). -/
def failedCallbackMessage (req : CallbackRequest) : String :=
  match req.metadata.error with
  | some msg => msg
  | none => "Job failed in n8n workflow"

/-- `Manager.handleFailedCallback`: extract an error message from the
metadata and set the job status to failed. -/
def handleFailedCallback (s : StoreState) (req : CallbackRequest) :
    Except String StoreState :=
  .ok (store.updateJobStatus s req.jobID StatusFailed
        (some (failedCallbackMessage req)))

/-- `Manager.HandleCallback`: look the job up (not-found is an error), then
branch on the reported status; any status other than completed/failed is
rejected. -/
def HandleCallback (s : StoreState) (req : CallbackRequest) :
    Except String StoreState :=
  match store.getJob s req.jobID with
  | none => .error "job not found"
  | some _ =>
      if req.status == StatusCompleted then handleCompletedCallback s req
      else if req.status == StatusFailed then handleFailedCallback s req
      else .error ("unknown callback status: " ++ req.status)

end jobs

namespace api

/-- `Server.isValidURL`: lower-case the URL and check the scheme prefix
(`strings.ToLower` then `strings.HasPrefix`).  Modelled on the character
list of the string; `Char.toLower` maps the ASCII range exactly as Go's
Unicode case mapping does for every character whose lower case could occur
in the two checked prefixes. -/
def isValidURL (url : String) : Bool :=
  let lowered := url.data.map Char.toLower
  ("http://".data).isPrefixOf lowered || ("https://".data).isPrefixOf lowered

/-- Outcome of an API handler: a JSON response or an error with message and
code. -/
inductive ApiResult where
  | ok (response : jobs.CreateJobResponse)
  | apiError (message code : String)
deriving Repr, DecidableEq

/-- `Server.handleCreateRingtone` after JSON decoding: validate the source
URL (empty, then scheme), then delegate to `Manager.CreateJob`.  On any
validation failure the store is untouched and no job is created. -/
def handleCreateRingtone (s : StoreState) (jobID : String)
    (req : jobs.CreateJobRequest) : ApiResult × StoreState :=
  if req.sourceURL == "" then
    (.apiError "source_url is required" "MISSING_SOURCE_URL", s)
  else if !isValidURL req.sourceURL then
    (.apiError "Invalid source URL format" "INVALID_URL", s)
  else
    match jobs.CreateJob s jobID req with
    | .error _ => (.apiError "Failed to create job" "JOB_CREATION_ERROR", s)
    | .ok (resp, s1, _) => (.ok resp, s1)

end api

/-- The atomic store-writing events of the orchestration core.  `submit` is
`Manager.CreateJob`; the three `dispatch*` events are the individual store
writes the retry goroutine performs (which interleave with callback
handling, as the goroutine and the HTTP handler share no lock); `reconcile`
is `Manager.HandleCallback` (no state change when it returns an error);
`getStatus` is the read-only projection. -/
inductive Event where
  | submit (jobID : String) (req : jobs.CreateJobRequest)
  | dispatchIncrement (jobID : String)
  | dispatchSuccess (jobID : String)
  | dispatchFail (jobID : String)
  | reconcile (req : jobs.CallbackRequest)
  | getStatus (jobID : String)
deriving Repr, DecidableEq

/-- The effect of one event on the store. -/
def step (s : StoreState) : Event → StoreState
  | .submit jobID req =>
      match jobs.CreateJob s jobID req with
      | .ok (_, s1, _) => s1
      | .error _ => s
  | .dispatchIncrement jobID => store.incrementJobAttempts s jobID
  | .dispatchSuccess jobID =>
      store.updateJobStatus s jobID StatusProcessing none
  | .dispatchFail jobID =>
      store.updateJobStatus s jobID StatusFailed (some jobs.failureMessage)
  | .reconcile req =>
      match jobs.HandleCallback s req with
      | .ok s1 => s1
      | .error _ => s
  | .getStatus _ => s

/-- Run a sequence of events from a starting store. -/
def run (s : StoreState) (events : List Event) : StoreState :=
  events.foldl step s

/-! ## Witness fixtures -/

/-- A well-formed submission request used by concrete witnesses. -/
def wReq : jobs.CreateJobRequest :=
  { sourceURL := "https://example.com/v1", userID := none, options := none }

/-- The store after submitting `wReq` as job `"job1"`. -/
def wStore : StoreState := step initialStore (.submit "job1" wReq)

/-- The job row created by that submission. -/
def wJob : Job := jobs.newJob 0 "job1" wReq

/-- A well-formed completed-status callback for `"job1"`. -/
def wCb : jobs.CallbackRequest :=
  { jobID := "job1", status := "completed", filePath := some "a.mp3",
    metadata := { duration := some 30, error := none } }

/-- The store after reconciling `wCb` against `wStore`. -/
def wS1 : StoreState := step wStore (.reconcile wCb)

/-- A completed-status callback with the artifact locator missing. -/
def wCbNoFile : jobs.CallbackRequest :=
  { jobID := "job1", status := "completed", filePath := none,
    metadata := { duration := none, error := none } }

/-- A submission request with an empty source reference. -/
def wBadReq : jobs.CreateJobRequest :=
  { sourceURL := "", userID := none, options := none }

/-- An arbitrary response value used to instantiate a negative conclusion. -/
def wResp0 : jobs.CreateJobResponse :=
  { jobID := "job1", status := StatusQueued, pollURL := "/api/v1/job-status/job1" }

/-- The `"job1"` row as it stands in `wS1` (completed by the callback). -/
def wJobDone : Job := { wJob with status := StatusCompleted, updatedAt := 2 }

/-- The store after the submitted job's dispatch retries were exhausted. -/
def wStoreFailed : StoreState := step wStore (.dispatchFail "job1")

/-- The `"job1"` row as it stands in `wStoreFailed`. -/
def wJobFailed : Job :=
  { wJob with
    status := StatusFailed,
    updatedAt := 1,
    errorMessage := some jobs.failureMessage }

/-! ## Trace predicates and invariants -/

/-- Whether an event is a callback reconciliation addressed to `jid`. -/
def isReconcileFor (jid : String) : Event → Bool
  | .reconcile req => req.jobID == jid
  | _ => false

/-- Whether an event is one of the dispatch-retry loop's *status* writes
for `jid` (the `processing` write after a webhook success or the `failed`
write on exhaustion).  Attempts increments are deliberately not included:
they touch neither the status column nor the ringtones table. -/
def isDispatchWriteFor (jid : String) : Event → Bool
  | .dispatchSuccess j => j == jid
  | .dispatchFail j => j == jid
  | _ => false

/-- An event that neither reconciles job `jid` nor writes its status from
the dispatch loop. -/
def safeFor (jid : String) (e : Event) : Bool :=
  !(isDispatchWriteFor jid e) && !(isReconcileFor jid e)

/-- The delivery discipline under which the exclusivity invariant holds for
job `jid`: after the first reconciliation addressed to `jid`, no further
reconciliation for `jid` and no dispatch-loop status write for `jid`
occurs (attempts increments remain unrestricted). -/
def orderly (jid : String) : List Event → Bool
  | [] => true
  | e :: rest =>
      if isReconcileFor jid e then rest.all (safeFor jid) else orderly jid rest

/-- The spec's Result-exclusivity invariant for one job: a completed job
owns exactly one ringtone row, a job in any other state (or an absent job)
owns none. -/
def ResultExclusive (s : StoreState) (jid : String) : Prop :=
  (store.getJob s jid = none → ringtonesOf s jid = []) ∧
  ∀ job, store.getJob s jid = some job →
    (job.status = StatusCompleted → (ringtonesOf s jid).length = 1) ∧
    (job.status ≠ StatusCompleted → ringtonesOf s jid = [])

/-- State of a job before its first reconciliation: no ringtone rows and
not completed. -/
def PreReconcile (s : StoreState) (jid : String) : Prop :=
  ringtonesOf s jid = [] ∧
  ∀ job, store.getJob s jid = some job → job.status ≠ StatusCompleted


/-! ## Lemmas about the store operations -/

theorem find?_mapIf_self (l : List Job) (id : String) (g : Job → Job)
    (hg : ∀ j, (g j).id = j.id) :
    (l.map (fun j => if j.id == id then g j else j)).find? (fun j => j.id == id)
      = (l.find? (fun j => j.id == id)).map g := by
  induction l with
  | nil => rfl
  | cons j rest ih =>
      by_cases h : j.id = id
      · have hb : (j.id == id) = true := beq_iff_eq.mpr h
        have hgb : ((g j).id == id) = true := by rw [hg j]; exact hb
        rw [List.map_cons, if_pos hb,
          List.find?_cons_of_pos (p := fun j : Job => j.id == id) _ hgb,
          List.find?_cons_of_pos (p := fun j : Job => j.id == id) _ hb, Option.map_some']
      · have hb : ¬ ((j.id == id) = true) := fun hh => h (beq_iff_eq.mp hh)
        rw [List.map_cons, if_neg hb,
          List.find?_cons_of_neg (p := fun j : Job => j.id == id) _ hb,
          List.find?_cons_of_neg (p := fun j : Job => j.id == id) _ hb, ih]

theorem find?_mapIf_other (l : List Job) (id id2 : String) (g : Job → Job)
    (hg : ∀ j, (g j).id = j.id) (hne : id ≠ id2) :
    (l.map (fun j => if j.id == id then g j else j)).find? (fun j => j.id == id2)
      = l.find? (fun j => j.id == id2) := by
  induction l with
  | nil => rfl
  | cons j rest ih =>
      by_cases h : j.id = id
      · have hj2 : j.id ≠ id2 := by rw [h]; exact hne
        have hb : (j.id == id) = true := beq_iff_eq.mpr h
        have hb2 : ¬ ((j.id == id2) = true) := fun hh => hj2 (beq_iff_eq.mp hh)
        have hgb2 : ¬ (((g j).id == id2) = true) := by rw [hg j]; exact hb2
        rw [List.map_cons, if_pos hb,
          List.find?_cons_of_neg (p := fun j : Job => j.id == id2) _ hgb2,
          List.find?_cons_of_neg (p := fun j : Job => j.id == id2) _ hb2, ih]
      · have hb : ¬ ((j.id == id) = true) := fun hh => h (beq_iff_eq.mp hh)
        by_cases h2 : j.id = id2
        · have hb2 : (j.id == id2) = true := beq_iff_eq.mpr h2
          rw [List.map_cons, if_neg hb,
            List.find?_cons_of_pos (p := fun j : Job => j.id == id2) _ hb2,
            List.find?_cons_of_pos (p := fun j : Job => j.id == id2) _ hb2]
        · have hb2 : ¬ ((j.id == id2) = true) := fun hh => h2 (beq_iff_eq.mp hh)
          rw [List.map_cons, if_neg hb,
            List.find?_cons_of_neg (p := fun j : Job => j.id == id2) _ hb2,
            List.find?_cons_of_neg (p := fun j : Job => j.id == id2) _ hb2, ih]

theorem getJob_updateJobStatus_self (s : StoreState) (id status : String)
    (em : Option String) :
    store.getJob (store.updateJobStatus s id status em) id
      = (store.getJob s id).map (fun j =>
          { j with status := status, updatedAt := s.clock, errorMessage := em }) :=
  find?_mapIf_self s.jobs id _ (fun _ => rfl)

theorem getJob_updateJobStatus_other (s : StoreState) (id status : String)
    (em : Option String) (id2 : String) (hne : id ≠ id2) :
    store.getJob (store.updateJobStatus s id status em) id2 = store.getJob s id2 :=
  find?_mapIf_other s.jobs id id2 _ (fun _ => rfl) hne

theorem getJob_incrementJobAttempts_self (s : StoreState) (id : String) :
    store.getJob (store.incrementJobAttempts s id) id
      = (store.getJob s id).map (fun j =>
          { j with attempts := j.attempts + 1, updatedAt := s.clock }) :=
  find?_mapIf_self s.jobs id _ (fun _ => rfl)

theorem getJob_incrementJobAttempts_other (s : StoreState) (id id2 : String)
    (hne : id ≠ id2) :
    store.getJob (store.incrementJobAttempts s id) id2 = store.getJob s id2 :=
  find?_mapIf_other s.jobs id id2 _ (fun _ => rfl) hne

theorem ringtonesOf_updateJobStatus (s : StoreState) (id status : String)
    (em : Option String) (jid : String) :
    ringtonesOf (store.updateJobStatus s id status em) jid = ringtonesOf s jid := rfl

theorem ringtonesOf_incrementJobAttempts (s : StoreState) (id jid : String) :
    ringtonesOf (store.incrementJobAttempts s id) jid = ringtonesOf s jid := rfl

theorem getJob_createRingtone (s : StoreState) (rt : Ringtone) (id : String) :
    store.getJob (store.createRingtone s rt).1 id = store.getJob s id := rfl

theorem ringtonesOf_createRingtone (s : StoreState) (rt : Ringtone) (jid : String) :
    ringtonesOf (store.createRingtone s rt).1 jid
      = if rt.jobID = jid
        then ringtonesOf s jid ++ [{ rt with id := s.nextRingtoneID }]
        else ringtonesOf s jid := by
  unfold ringtonesOf store.createRingtone
  by_cases h : rt.jobID = jid
  · have hb : (rt.jobID == jid) = true := beq_iff_eq.mpr h
    simp [List.filter_append, List.filter, hb, h]
  · have hb : (rt.jobID == jid) = false := by
      cases hc : rt.jobID == jid
      · rfl
      · exact absurd (beq_iff_eq.mp hc) h
    simp [List.filter_append, List.filter, hb, h]

theorem createJob_absent (s : StoreState) (job : Job)
    (h : store.getJob s job.id = none) :
    store.createJob s job
      = .ok { s with jobs := s.jobs ++ [job], clock := s.clock + 1 } := by
  unfold store.createJob
  rw [show s.jobs.find? (fun j => j.id == job.id) = none from h]

theorem createJob_present (s : StoreState) (job j0 : Job)
    (h : store.getJob s job.id = some j0) :
    store.createJob s job = .error "UNIQUE constraint failed: jobs.id" := by
  unfold store.createJob
  rw [show s.jobs.find? (fun j => j.id == job.id) = some j0 from h]

theorem getJob_append (s : StoreState) (job : Job) (id2 : String) :
    store.getJob { s with jobs := s.jobs ++ [job], clock := s.clock + 1 } id2
      = (store.getJob s id2).or (if job.id = id2 then some job else none) := by
  unfold store.getJob
  rw [List.find?_append]
  by_cases h : job.id = id2
  · have hb : (job.id == id2) = true := beq_iff_eq.mpr h
    simp [List.find?, hb, h]
  · have hb : (job.id == id2) = false := by
      cases hc : job.id == id2
      · rfl
      · exact absurd (beq_iff_eq.mp hc) h
    simp [List.find?, hb, h]

theorem ringtonesOf_append_job (s : StoreState) (job : Job) (jid : String) :
    ringtonesOf { s with jobs := s.jobs ++ [job], clock := s.clock + 1 } jid
      = ringtonesOf s jid := rfl

/-! ## Unfolding lemmas for the manager operations -/

theorem CreateJob_present (s : StoreState) (jid : String)
    (req : jobs.CreateJobRequest) (j0 : Job)
    (h : store.getJob s jid = some j0) :
    jobs.CreateJob s jid req
      = .error ("failed to create job in database: "
          ++ "UNIQUE constraint failed: jobs.id") := by
  have h2 : store.getJob s (jobs.newJob s.clock jid req).id = some j0 := h
  unfold jobs.CreateJob
  rw [createJob_present _ _ _ h2]

theorem CreateJob_absent (s : StoreState) (jid : String)
    (req : jobs.CreateJobRequest) (h : store.getJob s jid = none) :
    jobs.CreateJob s jid req
      = .ok ({ jobID := jid, status := StatusQueued,
               pollURL := "/api/v1/job-status/" ++ jid },
             { s with
               jobs := s.jobs ++ [jobs.newJob s.clock jid req],
               clock := s.clock + 1 },
             jobs.payloadOf jid req) := by
  have h2 : store.getJob s (jobs.newJob s.clock jid req).id = none := h
  unfold jobs.CreateJob
  rw [createJob_absent _ _ h2]

theorem HandleCallback_notFound (s : StoreState) (req : jobs.CallbackRequest)
    (h : store.getJob s req.jobID = none) :
    jobs.HandleCallback s req = .error "job not found" := by
  unfold jobs.HandleCallback
  rw [h]

theorem HandleCallback_completed (s : StoreState) (req : jobs.CallbackRequest)
    (j0 : Job) (fp : String) (h1 : store.getJob s req.jobID = some j0)
    (h2 : req.status = StatusCompleted) (h3 : req.filePath = some fp) :
    jobs.HandleCallback s req
      = .ok (store.updateJobStatus
              (store.createRingtone s (jobs.callbackRingtone s.clock req fp)).1
              req.jobID StatusCompleted none) := by
  simp [jobs.HandleCallback, jobs.handleCompletedCallback, h1, h2, h3]

theorem HandleCallback_completed_noFile (s : StoreState)
    (req : jobs.CallbackRequest) (j0 : Job)
    (h1 : store.getJob s req.jobID = some j0)
    (h2 : req.status = StatusCompleted) (h3 : req.filePath = none) :
    jobs.HandleCallback s req
      = .error "file_path is required for completed status" := by
  simp [jobs.HandleCallback, jobs.handleCompletedCallback, h1, h2, h3]

theorem HandleCallback_failed (s : StoreState) (req : jobs.CallbackRequest)
    (j0 : Job) (h1 : store.getJob s req.jobID = some j0)
    (h2 : req.status = StatusFailed) :
    jobs.HandleCallback s req
      = .ok (store.updateJobStatus s req.jobID StatusFailed
              (some (jobs.failedCallbackMessage req))) := by
  have hne : (StatusFailed == StatusCompleted) = false := by decide
  simp [jobs.HandleCallback, jobs.handleFailedCallback, h1, h2, hne]

theorem HandleCallback_unknown (s : StoreState) (req : jobs.CallbackRequest)
    (j0 : Job) (h1 : store.getJob s req.jobID = some j0)
    (h2 : (req.status == StatusCompleted) = false)
    (h3 : (req.status == StatusFailed) = false) :
    jobs.HandleCallback s req
      = .error ("unknown callback status: " ++ req.status) := by
  simp [jobs.HandleCallback, h1, h2, h3]

/-! ## Lemmas about single events -/

theorem step_submit_present (s : StoreState) (jid : String)
    (req : jobs.CreateJobRequest) (j0 : Job)
    (h : store.getJob s jid = some j0) :
    step s (.submit jid req) = s := by
  simp [step, CreateJob_present s jid req j0 h]

theorem step_submit_absent (s : StoreState) (jid : String)
    (req : jobs.CreateJobRequest) (h : store.getJob s jid = none) :
    step s (.submit jid req)
      = { s with
          jobs := s.jobs ++ [jobs.newJob s.clock jid req],
          clock := s.clock + 1 } := by
  simp [step, CreateJob_absent s jid req h]

theorem step_reconcile_ok (s : StoreState) (req : jobs.CallbackRequest)
    (s1 : StoreState) (h : jobs.HandleCallback s req = .ok s1) :
    step s (.reconcile req) = s1 := by
  simp [step, h]

theorem step_reconcile_error (s : StoreState) (req : jobs.CallbackRequest)
    (e : String) (h : jobs.HandleCallback s req = .error e) :
    step s (.reconcile req) = s := by
  simp [step, h]

/-! ## Lemmas about the dispatch-retry loop -/

theorem backoff_eq (k : Nat) : jobs.backoff k = jobs.baseDelay * 2 ^ (k - 1) := by
  unfold jobs.backoff
  rw [Nat.shiftLeft_eq, one_mul]

theorem trigger_allFail (webhook : Nat → Bool) (jid : String) (s : StoreState)
    (h1 : webhook 1 = false) (h2 : webhook 2 = false) (h3 : webhook 3 = false) :
    jobs.triggerN8NWorkflow webhook jid s
      = (store.updateJobStatus
           (store.incrementJobAttempts
             (store.incrementJobAttempts
               (store.incrementJobAttempts s jid) jid) jid)
           jid StatusFailed (some jobs.failureMessage),
         [.increment, .webhookCall false, .sleep (jobs.backoff 1),
          .increment, .webhookCall false, .sleep (jobs.backoff 2),
          .increment, .webhookCall false,
          .writeStatus StatusFailed (some jobs.failureMessage)]) := by
  simp [jobs.triggerN8NWorkflow, jobs.triggerLoopAux, jobs.maxAttempts, h1, h2, h3]

/-! ## Claims -/

/-- Claim C4: when every dispatch attempt fails, the retry loop stops after
exactly 3 attempts, the job ends in `failed` with the non-empty error
message, and its attempts counter equals exactly 3; the trace shows exactly
3 webhook calls, so no further dispatch attempt is made. -/
theorem retry_exhaustion_fails_after_three_attempts
    (webhook : Nat → Bool) (s : StoreState) (jid : String) (job : Job)
    (hw1 : webhook 1 = false) (hw2 : webhook 2 = false) (hw3 : webhook 3 = false)
    (hjob : store.getJob s jid = some job) (h0 : job.attempts = 0) :
    ∃ job2, store.getJob (jobs.triggerN8NWorkflow webhook jid s).1 jid = some job2 ∧
      job2.status = StatusFailed ∧
      job2.attempts = 3 ∧
      job2.errorMessage = some jobs.failureMessage ∧
      jobs.failureMessage ≠ "" ∧
      jobs.webhookCallsOf (jobs.triggerN8NWorkflow webhook jid s).2 = 3 := by
  simp only [trigger_allFail webhook jid s hw1 hw2 hw3,
    getJob_updateJobStatus_self, getJob_incrementJobAttempts_self, hjob,
    Option.map_some']
  refine ⟨_, rfl, rfl, ?_, rfl, by decide, by decide⟩
  simp [h0]

/-- Witness for C4 at a concrete store, job and always-failing client. -/
theorem retry_exhaustion_fails_after_three_attempts_witness :
    store.getJob wStore "job1" = some wJob ∧ wJob.attempts = 0 ∧
    (∃ job2,
      store.getJob (jobs.triggerN8NWorkflow (fun _ => false) "job1" wStore).1 "job1"
        = some job2 ∧
      job2.status = StatusFailed ∧
      job2.attempts = 3 ∧
      job2.errorMessage = some jobs.failureMessage ∧
      jobs.failureMessage ≠ "" ∧
      jobs.webhookCallsOf (jobs.triggerN8NWorkflow (fun _ => false) "job1" wStore).2 = 3) :=
  ⟨by decide, rfl,
   retry_exhaustion_fails_after_three_attempts (fun _ => false) wStore "job1" wJob
     rfl rfl rfl (by decide) rfl⟩

/-- Claim C5: for every failed dispatch attempt k with 1 ≤ k < 3, the wait
inserted before attempt k+1 is the (k)-th sleep of the trace and equals
`baseDelay * 2^(k-1)`, and this backoff is strictly increasing in k. -/
theorem backoff_schedule (webhook : Nat → Bool) (jid : String) (s : StoreState)
    (k : Nat) (hk1 : 1 ≤ k) (hk2 : k < jobs.maxAttempts)
    (hf : ∀ i, 1 ≤ i → i ≤ k → webhook i = false) :
    (jobs.sleepsOf (jobs.triggerN8NWorkflow webhook jid s).2)[k - 1]?
        = some (jobs.baseDelay * 2 ^ (k - 1)) ∧
    jobs.backoff k = jobs.baseDelay * 2 ^ (k - 1) ∧
    jobs.backoff k < jobs.backoff (k + 1) := by
  have hk3 : k < 3 := by simpa [jobs.maxAttempts] using hk2
  interval_cases k
  · have h1 := hf 1 le_rfl le_rfl
    refine ⟨?_, backoff_eq 1, by decide⟩
    simp [jobs.triggerN8NWorkflow, jobs.triggerLoopAux, jobs.maxAttempts, h1,
      jobs.sleepsOf, backoff_eq]
  · have h1 := hf 1 (by omega) (by omega)
    have h2 := hf 2 (by omega) (by omega)
    refine ⟨?_, backoff_eq 2, by decide⟩
    simp [jobs.triggerN8NWorkflow, jobs.triggerLoopAux, jobs.maxAttempts, h1, h2,
      jobs.sleepsOf, backoff_eq]

/-- Witness for C5 at k = 1 with an always-failing client. -/
theorem backoff_schedule_witness :
    1 ≤ 1 ∧ 1 < jobs.maxAttempts ∧
    ((jobs.sleepsOf (jobs.triggerN8NWorkflow (fun _ => false) "job1" initialStore).2)[1 - 1]?
        = some (jobs.baseDelay * 2 ^ (1 - 1)) ∧
     jobs.backoff 1 = jobs.baseDelay * 2 ^ (1 - 1) ∧
     jobs.backoff 1 < jobs.backoff (1 + 1)) :=
  ⟨le_rfl, by decide,
   backoff_schedule (fun _ => false) "job1" initialStore 1 le_rfl (by decide)
     (fun _ _ _ => rfl)⟩

/-- Claim C6: a valid submission persists a new job row with status queued
and attempts 0 before returning, and the returned handle carries the fresh
identifier, the queued status and the poll reference; the job is
immediately observable in queued with attempts 0. -/
theorem submit_persists_queued_job (s : StoreState) (jid : String)
    (req : jobs.CreateJobRequest) (h : store.getJob s jid = none) :
    ∃ s1 payload,
      jobs.CreateJob s jid req
        = .ok ({ jobID := jid, status := StatusQueued,
                 pollURL := "/api/v1/job-status/" ++ jid }, s1, payload) ∧
      ∃ job, store.getJob s1 jid = some job ∧
        job.status = StatusQueued ∧ job.attempts = 0 := by
  refine ⟨_, _, CreateJob_absent s jid req h,
    ⟨jobs.newJob s.clock jid req, ?_, rfl, rfl⟩⟩
  rw [getJob_append, h]
  simp [jobs.newJob, Option.or]

/-- Witness for C6 at the empty store. -/
theorem submit_persists_queued_job_witness :
    store.getJob initialStore "job1" = none ∧
    (∃ s1 payload,
      jobs.CreateJob initialStore "job1" wReq
        = .ok ({ jobID := "job1", status := StatusQueued,
                 pollURL := "/api/v1/job-status/" ++ "job1" }, s1, payload) ∧
      ∃ job, store.getJob s1 "job1" = some job ∧
        job.status = StatusQueued ∧ job.attempts = 0) :=
  ⟨rfl, submit_persists_queued_job initialStore "job1" wReq rfl⟩

/-- Claim C7: a submission whose source reference is empty or malformed is
rejected by the API layer with an invalid-input error; the store is
untouched (no job created) and nothing is dispatched. -/
theorem invalid_source_rejected (s : StoreState) (jid : String)
    (req : jobs.CreateJobRequest)
    (h : req.sourceURL = "" ∨ api.isValidURL req.sourceURL = false) :
    (api.handleCreateRingtone s jid req).2 = s ∧
    ∀ resp, (api.handleCreateRingtone s jid req).1 ≠ api.ApiResult.ok resp := by
  unfold api.handleCreateRingtone
  rcases h with h | h
  · have hb : (req.sourceURL == "") = true := beq_iff_eq.mpr h
    simp [hb]
  · by_cases he : req.sourceURL = ""
    · have hb : (req.sourceURL == "") = true := beq_iff_eq.mpr he
      simp [hb]
    · have hb : (req.sourceURL == "") = false := by
        cases hx : req.sourceURL == ""
        · rfl
        · exact absurd (beq_iff_eq.mp hx) he
      simp [hb, h]

/-- Witness for C7 at the empty source reference. -/
theorem invalid_source_rejected_witness :
    wBadReq.sourceURL = "" ∧
    (api.handleCreateRingtone initialStore "job1" wBadReq).2 = initialStore ∧
    (api.handleCreateRingtone initialStore "job1" wBadReq).1
      ≠ api.ApiResult.ok wResp0 :=
  ⟨rfl, (invalid_source_rejected initialStore "job1" wBadReq (Or.inl rfl)).1,
   (invalid_source_rejected initialStore "job1" wBadReq (Or.inl rfl)).2 wResp0⟩

/-- Claim C8: a completed-status report without an artifact locator is
rejected as invalid input and the store is left unchanged: no status write
and no Result record. -/
theorem completed_report_missing_artifact_rejected (s : StoreState)
    (req : jobs.CallbackRequest) (job : Job)
    (h1 : store.getJob s req.jobID = some job)
    (h2 : req.status = StatusCompleted) (h3 : req.filePath = none) :
    jobs.HandleCallback s req = .error "file_path is required for completed status" ∧
    step s (.reconcile req) = s := by
  have he := HandleCallback_completed_noFile s req job h1 h2 h3
  exact ⟨he, step_reconcile_error s req _ he⟩

/-- Witness for C8 at a concrete queued job. -/
theorem completed_report_missing_artifact_rejected_witness :
    store.getJob wStore wCbNoFile.jobID = some wJob ∧
    wCbNoFile.status = StatusCompleted ∧ wCbNoFile.filePath = none ∧
    (jobs.HandleCallback wStore wCbNoFile
       = .error "file_path is required for completed status" ∧
     step wStore (.reconcile wCbNoFile) = wStore) :=
  ⟨by decide, rfl, rfl,
   completed_report_missing_artifact_rejected wStore wCbNoFile wJob
     (by decide) rfl rfl⟩

/-- Claim C9: the status projection mutates nothing (the store component it
returns is the input store), and the returned view carries a download
reference exactly when the job is completed, resolved from the job's
Result record. -/
theorem get_status_pure_projection (s : StoreState) (jid : String) (job : Job)
    (h : store.getJob s jid = some job) :
    (jobs.GetJobStatus s jid).2 = s ∧
    ∃ resp, (jobs.GetJobStatus s jid).1 = .ok resp ∧
      resp.jobID = job.id ∧ resp.status = job.status ∧
      resp.downloadURL = (if job.status = StatusCompleted
        then (store.getRingtoneByJobID s jid).map
               (fun r => "/download/" ++ r.fileName)
        else none) := by
  unfold jobs.GetJobStatus
  rw [h]
  by_cases hc : job.status = StatusCompleted
  · have hb : (job.status == StatusCompleted) = true := beq_iff_eq.mpr hc
    cases hr : store.getRingtoneByJobID s jid with
    | none => simp [hb, hc, hr]
    | some rt => simp [hb, hc, hr]
  · have hb : (job.status == StatusCompleted) = false := by
      cases hx : job.status == StatusCompleted
      · rfl
      · exact absurd (beq_iff_eq.mp hx) hc
    simp [hb, hc]

/-- Witness for C9 at a completed job with its Result record. -/
theorem get_status_pure_projection_witness :
    store.getJob wS1 "job1"
      = some { wJob with status := StatusCompleted, updatedAt := 2 } ∧
    (jobs.GetJobStatus wS1 "job1").2 = wS1 :=
  ⟨by decide,
   (get_status_pure_projection wS1 "job1"
     { wJob with status := StatusCompleted, updatedAt := 2 } (by decide)).1⟩

/-- Claim C10: every Result record created by a completed-status
reconciliation has format exactly "mp3", whatever the job options or the
artifact file name say. -/
theorem result_format_always_mp3 (s s1 : StoreState) (req : jobs.CallbackRequest)
    (h2 : req.status = StatusCompleted) (h : jobs.HandleCallback s req = .ok s1) :
    ∃ rt, s1.ringtones = s.ringtones ++ [rt] ∧ rt.format = "mp3" := by
  cases hj : store.getJob s req.jobID with
  | none =>
      rw [HandleCallback_notFound s req hj] at h
      exact absurd h (by simp)
  | some j0 =>
      cases hf : req.filePath with
      | none =>
          rw [HandleCallback_completed_noFile s req j0 hj h2 hf] at h
          exact absurd h (by simp)
      | some fp =>
          rw [HandleCallback_completed s req j0 fp hj h2 hf] at h
          injection h with h1
          refine ⟨{ jobs.callbackRingtone s.clock req fp with
                    id := s.nextRingtoneID }, ?_, rfl⟩
          rw [← h1]
          rfl

/-- Witness for C10 at a concrete completed callback. -/
theorem result_format_always_mp3_witness :
    wCb.status = StatusCompleted ∧ jobs.HandleCallback wStore wCb = .ok wS1 ∧
    (∃ rt, wS1.ringtones = wStore.ringtones ++ [rt] ∧ rt.format = "mp3") :=
  ⟨rfl, rfl, result_format_always_mp3 wStore wS1 wCb rfl rfl⟩

/-! ## Trace-level helper lemmas for the C1-C3 state-machine properties -/

theorem beq_false_of_ne (a b : String) (h : a ≠ b) : (a == b) = false := by
  cases hx : a == b
  · rfl
  · exact absurd (beq_iff_eq.mp hx) h

theorem run_cons (s : StoreState) (e : Event) (rest : List Event) :
    run s (e :: rest) = run (step s e) rest := rfl

/-- Every reconcile step either leaves the store unchanged (an error was
returned) or is an `updateJobStatus` to completed/failed on a store that
agrees with the original on all job rows and on the ringtone rows of every
other job. -/
theorem step_reconcile_shape (s : StoreState) (req : jobs.CallbackRequest) :
    step s (.reconcile req) = s ∨
    ∃ s0 st em, (st = StatusCompleted ∨ st = StatusFailed) ∧
      (∀ j, store.getJob s0 j = store.getJob s j) ∧
      (∀ j, j ≠ req.jobID → ringtonesOf s0 j = ringtonesOf s j) ∧
      step s (.reconcile req) = store.updateJobStatus s0 req.jobID st em := by
  cases hj : store.getJob s req.jobID with
  | none =>
      exact Or.inl (step_reconcile_error s req _ (HandleCallback_notFound s req hj))
  | some j0 =>
      by_cases hc : req.status = StatusCompleted
      · cases hfp : req.filePath with
        | none =>
            exact Or.inl (step_reconcile_error s req _
              (HandleCallback_completed_noFile s req j0 hj hc hfp))
        | some fp =>
            refine Or.inr
              ⟨(store.createRingtone s (jobs.callbackRingtone s.clock req fp)).1,
               StatusCompleted, none, Or.inl rfl, fun j => rfl, fun j hne => ?_,
               step_reconcile_ok s req _
                 (HandleCallback_completed s req j0 fp hj hc hfp)⟩
            rw [ringtonesOf_createRingtone]
            simp only [jobs.callbackRingtone]
            rw [if_neg (fun hx => hne (Eq.symm hx))]
      · by_cases hf : req.status = StatusFailed
        · exact Or.inr ⟨s, StatusFailed, some (jobs.failedCallbackMessage req),
            Or.inr rfl, fun j => rfl, fun j _ => rfl,
            step_reconcile_ok s req _ (HandleCallback_failed s req j0 hj hf)⟩
        · have hb1 := beq_false_of_ne _ _ hc
          have hb2 := beq_false_of_ne _ _ hf
          exact Or.inl (step_reconcile_error s req _
            (HandleCallback_unknown s req j0 hj hb1 hb2))

/-- No single event can move an existing job back to `queued`. -/
theorem step_preserves_nonqueued (s : StoreState) (jid : String) (job : Job)
    (e : Event) (h1 : store.getJob s jid = some job)
    (hq : job.status ≠ StatusQueued) :
    ∃ job2, store.getJob (step s e) jid = some job2 ∧
      job2.status ≠ StatusQueued := by
  cases e with
  | submit jid2 req =>
      cases hg : store.getJob s jid2 with
      | some j0 =>
          rw [step_submit_present s jid2 req j0 hg]
          exact ⟨job, h1, hq⟩
      | none =>
          rw [step_submit_absent s jid2 req hg, getJob_append, h1]
          exact ⟨job, rfl, hq⟩
  | dispatchIncrement jid2 =>
      simp only [step]
      by_cases hjj : jid2 = jid
      · subst hjj
        rw [getJob_incrementJobAttempts_self, h1, Option.map_some']
        exact ⟨_, rfl, hq⟩
      · rw [getJob_incrementJobAttempts_other s jid2 jid hjj]
        exact ⟨job, h1, hq⟩
  | dispatchSuccess jid2 =>
      simp only [step]
      by_cases hjj : jid2 = jid
      · subst hjj
        rw [getJob_updateJobStatus_self, h1, Option.map_some']
        exact ⟨_, rfl, show StatusProcessing ≠ StatusQueued by decide⟩
      · rw [getJob_updateJobStatus_other s jid2 StatusProcessing none jid hjj]
        exact ⟨job, h1, hq⟩
  | dispatchFail jid2 =>
      simp only [step]
      by_cases hjj : jid2 = jid
      · subst hjj
        rw [getJob_updateJobStatus_self, h1, Option.map_some']
        exact ⟨_, rfl, show StatusFailed ≠ StatusQueued by decide⟩
      · rw [getJob_updateJobStatus_other s jid2 StatusFailed
          (some jobs.failureMessage) jid hjj]
        exact ⟨job, h1, hq⟩
  | reconcile req =>
      rcases step_reconcile_shape s req with hs | ⟨s0, st, em, hst, hjobs, hrings, hs⟩
      · rw [hs]; exact ⟨job, h1, hq⟩
      · rw [hs]
        by_cases hjj : req.jobID = jid
        · subst hjj
          rw [getJob_updateJobStatus_self, hjobs _, h1, Option.map_some']
          rcases hst with rfl | rfl
          · exact ⟨_, rfl, show StatusCompleted ≠ StatusQueued by decide⟩
          · exact ⟨_, rfl, show StatusFailed ≠ StatusQueued by decide⟩
        · rw [getJob_updateJobStatus_other s0 req.jobID st em jid hjj, hjobs jid]
          exact ⟨job, h1, hq⟩
  | getStatus a => exact ⟨job, h1, hq⟩

/-- An existing job that is not `queued` can never again be observed
`queued`, over any event sequence. -/
theorem nonqueued_run (s : StoreState) (jid : String) (job : Job)
    (events : List Event) (h1 : store.getJob s jid = some job)
    (hq : job.status ≠ StatusQueued) :
    ∃ job2, store.getJob (run s events) jid = some job2 ∧
      job2.status ≠ StatusQueued := by
  induction events generalizing s job with
  | nil => exact ⟨job, h1, hq⟩
  | cons e rest ih =>
      obtain ⟨job2, hj2, hq2⟩ := step_preserves_nonqueued s jid job e h1 hq
      rw [run_cons]
      exact ih _ _ hj2 hq2

/-- Before a job's first reconciliation, every non-reconcile event keeps it
without ringtone rows and away from `completed`. -/
theorem preReconcile_step (s : StoreState) (jid : String) (e : Event)
    (he : isReconcileFor jid e = false) (h : PreReconcile s jid) :
    PreReconcile (step s e) jid := by
  obtain ⟨hr0, hs0⟩ := h
  cases e with
  | submit jid2 req =>
      cases hg : store.getJob s jid2 with
      | some j0 =>
          rw [step_submit_present s jid2 req j0 hg]
          exact ⟨hr0, hs0⟩
      | none =>
          rw [step_submit_absent s jid2 req hg]
          refine ⟨hr0, ?_⟩
          intro job hjob
          rw [getJob_append] at hjob
          cases hg2 : store.getJob s jid with
          | some j1 =>
              rw [hg2] at hjob
              have hj : j1 = job := by
                simpa [Option.or] using hjob
              subst hj
              exact hs0 j1 hg2
          | none =>
              rw [hg2] at hjob
              by_cases hid : (jobs.newJob s.clock jid2 req).id = jid
              · rw [if_pos hid] at hjob
                have hj : jobs.newJob s.clock jid2 req = job := by
                  simpa [Option.or] using hjob
                subst hj
                exact show StatusQueued ≠ StatusCompleted by decide
              · rw [if_neg hid] at hjob
                simp [Option.or] at hjob
  | dispatchIncrement jid2 =>
      simp only [step]
      refine ⟨hr0, ?_⟩
      intro job hjob
      by_cases hjj : jid2 = jid
      · subst hjj
        rw [getJob_incrementJobAttempts_self] at hjob
        cases hg2 : store.getJob s jid2 with
        | some j1 =>
            rw [hg2, Option.map_some'] at hjob
            injection hjob with hj
            subst hj
            exact hs0 j1 hg2
        | none => rw [hg2] at hjob; cases hjob
      · rw [getJob_incrementJobAttempts_other s jid2 jid hjj] at hjob
        exact hs0 job hjob
  | dispatchSuccess jid2 =>
      simp only [step]
      refine ⟨hr0, ?_⟩
      intro job hjob
      by_cases hjj : jid2 = jid
      · subst hjj
        rw [getJob_updateJobStatus_self] at hjob
        cases hg2 : store.getJob s jid2 with
        | some j1 =>
            rw [hg2, Option.map_some'] at hjob
            injection hjob with hj
            subst hj
            exact show StatusProcessing ≠ StatusCompleted by decide
        | none => rw [hg2] at hjob; cases hjob
      · rw [getJob_updateJobStatus_other s jid2 StatusProcessing none jid hjj] at hjob
        exact hs0 job hjob
  | dispatchFail jid2 =>
      simp only [step]
      refine ⟨hr0, ?_⟩
      intro job hjob
      by_cases hjj : jid2 = jid
      · subst hjj
        rw [getJob_updateJobStatus_self] at hjob
        cases hg2 : store.getJob s jid2 with
        | some j1 =>
            rw [hg2, Option.map_some'] at hjob
            injection hjob with hj
            subst hj
            exact show StatusFailed ≠ StatusCompleted by decide
        | none => rw [hg2] at hjob; cases hjob
      · rw [getJob_updateJobStatus_other s jid2 StatusFailed
          (some jobs.failureMessage) jid hjj] at hjob
        exact hs0 job hjob
  | reconcile req =>
      have hne : req.jobID ≠ jid := by
        intro hx
        simp [isReconcileFor, hx] at he
      rcases step_reconcile_shape s req with hs | ⟨s0, st, em, hst, hjobs, hrings, hs⟩
      · rw [hs]; exact ⟨hr0, hs0⟩
      · rw [hs]
        constructor
        · rw [ringtonesOf_updateJobStatus, hrings jid (Ne.symm hne)]
          exact hr0
        · intro job hjob
          rw [getJob_updateJobStatus_other s0 req.jobID st em jid hne,
            hjobs jid] at hjob
          exact hs0 job hjob
  | getStatus a => exact ⟨hr0, hs0⟩

/-- A job's first reconciliation establishes the exclusivity invariant. -/
theorem reconcile_establishes_exclusive (s : StoreState) (jid : String)
    (req : jobs.CallbackRequest) (hreq : req.jobID = jid)
    (h : PreReconcile s jid) :
    ResultExclusive (step s (.reconcile req)) jid := by
  obtain ⟨hr0, hs0⟩ := h
  subst hreq
  cases hj : store.getJob s req.jobID with
  | none =>
      rw [step_reconcile_error s req _ (HandleCallback_notFound s req hj)]
      refine ⟨fun _ => hr0, fun job hjob => ?_⟩
      rw [hj] at hjob
      cases hjob
  | some j0 =>
      by_cases hc : req.status = StatusCompleted
      · cases hfp : req.filePath with
        | none =>
            rw [step_reconcile_error s req _
              (HandleCallback_completed_noFile s req j0 hj hc hfp)]
            exact ⟨fun _ => hr0, fun job hjob =>
              ⟨fun hcs => absurd hcs (hs0 job hjob), fun _ => hr0⟩⟩
        | some fp =>
            rw [step_reconcile_ok s req _
              (HandleCallback_completed s req j0 fp hj hc hfp)]
            constructor
            · intro habs
              rw [getJob_updateJobStatus_self, getJob_createRingtone, hj,
                Option.map_some'] at habs
              cases habs
            · intro job hjob
              rw [getJob_updateJobStatus_self, getJob_createRingtone, hj,
                Option.map_some'] at hjob
              injection hjob with hj2
              subst hj2
              constructor
              · intro _
                rw [ringtonesOf_updateJobStatus, ringtonesOf_createRingtone]
                simp [jobs.callbackRingtone, hr0]
              · intro hne2
                exact absurd rfl hne2
      · by_cases hf : req.status = StatusFailed
        · rw [step_reconcile_ok s req _ (HandleCallback_failed s req j0 hj hf)]
          constructor
          · intro habs
            rw [getJob_updateJobStatus_self, hj, Option.map_some'] at habs
            cases habs
          · intro job hjob
            rw [getJob_updateJobStatus_self, hj, Option.map_some'] at hjob
            injection hjob with hj2
            subst hj2
            constructor
            · intro hcs
              exact absurd hcs (show StatusFailed ≠ StatusCompleted by decide)
            · intro _
              rw [ringtonesOf_updateJobStatus]
              exact hr0
        · have hb1 := beq_false_of_ne _ _ hc
          have hb2 := beq_false_of_ne _ _ hf
          rw [step_reconcile_error s req _
            (HandleCallback_unknown s req j0 hj hb1 hb2)]
          exact ⟨fun _ => hr0, fun job hjob =>
            ⟨fun hcs => absurd hcs (hs0 job hjob), fun _ => hr0⟩⟩

/-- After the invariant holds, events that neither dispatch-write nor
reconcile the job preserve it. -/
theorem exclusive_step_safe (s : StoreState) (jid : String) (e : Event)
    (he : safeFor jid e = true) (h : ResultExclusive s jid) :
    ResultExclusive (step s e) jid := by
  obtain ⟨hn, hs0⟩ := h
  cases e with
  | submit jid2 req =>
      cases hg : store.getJob s jid2 with
      | some j0 =>
          rw [step_submit_present s jid2 req j0 hg]
          exact ⟨hn, hs0⟩
      | none =>
          rw [step_submit_absent s jid2 req hg]
          constructor
          · intro habs
            rw [getJob_append] at habs
            cases hg2 : store.getJob s jid with
            | some j1 => rw [hg2] at habs; simp [Option.or] at habs
            | none => exact hn hg2
          · intro job hjob
            rw [getJob_append] at hjob
            cases hg2 : store.getJob s jid with
            | some j1 =>
                rw [hg2] at hjob
                have hj : j1 = job := by simpa [Option.or] using hjob
                subst hj
                exact hs0 j1 hg2
            | none =>
                rw [hg2] at hjob
                by_cases hid : (jobs.newJob s.clock jid2 req).id = jid
                · rw [if_pos hid] at hjob
                  have hj : jobs.newJob s.clock jid2 req = job := by
                    simpa [Option.or] using hjob
                  subst hj
                  refine ⟨fun hcs => ?_, fun _ => hn hg2⟩
                  exact absurd hcs (show StatusQueued ≠ StatusCompleted by decide)
                · rw [if_neg hid] at hjob
                  simp [Option.or] at hjob
  | dispatchIncrement jid2 =>
      simp only [step]
      by_cases hjj : jid2 = jid
      · subst hjj
        constructor
        · intro habs
          rw [getJob_incrementJobAttempts_self] at habs
          cases hg2 : store.getJob s jid2 with
          | some j1 => rw [hg2, Option.map_some'] at habs; cases habs
          | none => exact hn hg2
        · intro job hjob
          rw [getJob_incrementJobAttempts_self] at hjob
          cases hg2 : store.getJob s jid2 with
          | some j1 =>
              rw [hg2, Option.map_some'] at hjob
              injection hjob with hj
              subst hj
              exact hs0 j1 hg2
          | none => rw [hg2] at hjob; cases hjob
      · constructor
        · intro habs
          rw [getJob_incrementJobAttempts_other s jid2 jid hjj] at habs
          exact hn habs
        · intro job hjob
          rw [getJob_incrementJobAttempts_other s jid2 jid hjj] at hjob
          exact hs0 job hjob
  | dispatchSuccess jid2 =>
      have hne : jid2 ≠ jid := by
        intro hx
        simp [safeFor, isDispatchWriteFor, hx] at he
      simp only [step]
      constructor
      · intro habs
        rw [getJob_updateJobStatus_other s jid2 StatusProcessing none jid hne] at habs
        exact hn habs
      · intro job hjob
        rw [getJob_updateJobStatus_other s jid2 StatusProcessing none jid hne] at hjob
        exact hs0 job hjob
  | dispatchFail jid2 =>
      have hne : jid2 ≠ jid := by
        intro hx
        simp [safeFor, isDispatchWriteFor, hx] at he
      simp only [step]
      constructor
      · intro habs
        rw [getJob_updateJobStatus_other s jid2 StatusFailed
          (some jobs.failureMessage) jid hne] at habs
        exact hn habs
      · intro job hjob
        rw [getJob_updateJobStatus_other s jid2 StatusFailed
          (some jobs.failureMessage) jid hne] at hjob
        exact hs0 job hjob
  | reconcile req =>
      have hne : req.jobID ≠ jid := by
        intro hx
        simp [safeFor, isReconcileFor, hx] at he
      rcases step_reconcile_shape s req with hs | ⟨s0, st, em, hst, hjobs, hrings, hs⟩
      · rw [hs]; exact ⟨hn, hs0⟩
      · rw [hs]
        have hr2 : ringtonesOf (store.updateJobStatus s0 req.jobID st em) jid
            = ringtonesOf s jid := by
          rw [ringtonesOf_updateJobStatus, hrings jid (Ne.symm hne)]
        constructor
        · intro habs
          rw [getJob_updateJobStatus_other s0 req.jobID st em jid hne,
            hjobs jid] at habs
          rw [hr2]
          exact hn habs
        · intro job hjob
          rw [getJob_updateJobStatus_other s0 req.jobID st em jid hne,
            hjobs jid] at hjob
          rw [hr2]
          exact hs0 job hjob
  | getStatus a => exact ⟨hn, hs0⟩

theorem exclusive_run_safe (jid : String) (events : List Event) (s : StoreState)
    (he : events.all (safeFor jid) = true) (h : ResultExclusive s jid) :
    ResultExclusive (run s events) jid := by
  induction events generalizing s with
  | nil => exact h
  | cons e rest ih =>
      rw [List.all_cons, Bool.and_eq_true] at he
      rw [run_cons]
      exact ih _ he.2 (exclusive_step_safe s jid e he.1 h)

theorem exclusive_of_preReconcile (s : StoreState) (jid : String)
    (h : PreReconcile s jid) : ResultExclusive s jid :=
  ⟨fun _ => h.1,
   fun job hjob => ⟨fun hc => absurd hc (h.2 job hjob), fun _ => h.1⟩⟩

/-- Under the `orderly` delivery discipline the exclusivity invariant holds
at the end of any run started in a pre-reconciliation state. -/
theorem exclusive_run (jid : String) (events : List Event) (s : StoreState)
    (ho : orderly jid events = true) (h : PreReconcile s jid) :
    ResultExclusive (run s events) jid := by
  induction events generalizing s with
  | nil => exact exclusive_of_preReconcile s jid h
  | cons e rest ih =>
      rw [run_cons]
      have hoe : orderly jid (e :: rest)
          = if isReconcileFor jid e then rest.all (safeFor jid)
            else orderly jid rest := rfl
      by_cases hr : isReconcileFor jid e = true
      · have hall : rest.all (safeFor jid) = true := by
          have ho2 := ho
          rw [hoe, if_pos hr] at ho2
          exact ho2
        cases e with
        | reconcile req =>
            have hjr : req.jobID = jid :=
              beq_iff_eq.mp (by simpa [isReconcileFor] using hr)
            exact exclusive_run_safe jid rest _ hall
              (reconcile_establishes_exclusive s jid req hjr h)
        | submit a b => exact absurd hr (by simp [isReconcileFor])
        | dispatchIncrement a => exact absurd hr (by simp [isReconcileFor])
        | dispatchSuccess a => exact absurd hr (by simp [isReconcileFor])
        | dispatchFail a => exact absurd hr (by simp [isReconcileFor])
        | getStatus a => exact absurd hr (by simp [isReconcileFor])
      · have ho2 : orderly jid rest = true := by
          have ho3 := ho
          rw [hoe, if_neg hr] at ho3
          exact ho3
        have hrf : isReconcileFor jid e = false := by
          cases hx : isReconcileFor jid e
          · rfl
          · exact absurd hx hr
        exact ih _ ho2 (preReconcile_step s jid e hrf h)

/-- Counterexample to claim C1 as stated: `HandleCallback` has no
terminal-state guard, so after a first completed report has put `"job1"`
into `completed` with one Result row, replaying the identical report
returns success but inserts a second Result row — the second call is not a
no-op and two Result records remain, not one. -/
theorem terminal_reconcile_noop_counterexample :
    statusOf wS1 "job1" = some StatusCompleted ∧
    (ringtonesOf wS1 "job1").length = 1 ∧
    jobs.HandleCallback wS1 wCb = .ok (step wS1 (.reconcile wCb)) ∧
    (ringtonesOf (step wS1 (.reconcile wCb)) "job1").length = 2 :=
  ⟨by decide, by decide, rfl, by decide⟩

/-- Claim C1 (amended): a further `HandleCallback` with a well-formed
completed report on a job already in a terminal state (`completed` or
`failed`) does return success, but it is not a no-op: it inserts one
additional Result record and (re-)writes the job row to `completed` — so a
duplicate completed report leaves two Result records, and a completed
report on a `failed` job flips it to `completed` while inserting a
Result. -/
theorem terminal_reconcile_not_noop (s : StoreState) (jid fp : String)
    (md : jobs.Metadata) (job : Job)
    (h1 : store.getJob s jid = some job)
    (h2 : job.status = StatusCompleted ∨ job.status = StatusFailed) :
    ∃ s2, jobs.HandleCallback s
            { jobID := jid, status := StatusCompleted,
              filePath := some fp, metadata := md }
          = .ok s2 ∧
      (ringtonesOf s2 jid).length = (ringtonesOf s jid).length + 1 ∧
      statusOf s2 jid = some StatusCompleted := by
  have hcb := HandleCallback_completed s
    { jobID := jid, status := StatusCompleted, filePath := some fp,
      metadata := md } job fp h1 rfl rfl
  refine ⟨_, hcb, ?_, ?_⟩
  · rw [ringtonesOf_updateJobStatus, ringtonesOf_createRingtone]
    simp [jobs.callbackRingtone]
  · unfold statusOf
    rw [getJob_updateJobStatus_self, getJob_createRingtone, h1]
    rfl

/-- Witness for the amended C1 at a concrete `failed` job: the completed
report succeeds, inserts a Result and flips the job to `completed`. -/
theorem terminal_reconcile_not_noop_witness :
    store.getJob wStoreFailed "job1" = some wJobFailed ∧
    (wJobFailed.status = StatusCompleted ∨ wJobFailed.status = StatusFailed) ∧
    (∃ s2, jobs.HandleCallback wStoreFailed
             { jobID := "job1", status := StatusCompleted,
               filePath := some "a.mp3", metadata := wCb.metadata }
           = .ok s2 ∧
       (ringtonesOf s2 "job1").length
         = (ringtonesOf wStoreFailed "job1").length + 1 ∧
       statusOf s2 "job1" = some StatusCompleted) :=
  ⟨by decide, Or.inr rfl,
   terminal_reconcile_not_noop wStoreFailed "job1" "a.mp3" wCb.metadata
     wJobFailed (by decide) (Or.inr rfl)⟩

/-- Counterexample to claim C2 as stated: the state reached by
submit, dispatch-success, reconcile, reconcile (a duplicate delivery of the
same completed report — a sequence of the core's operations) has the job
`completed` with two Result records. -/
theorem result_exclusivity_counterexample :
    statusOf (run initialStore
        [.submit "job1" wReq, .dispatchSuccess "job1",
         .reconcile wCb, .reconcile wCb]) "job1"
      = some StatusCompleted ∧
    (ringtonesOf (run initialStore
        [.submit "job1" wReq, .dispatchSuccess "job1",
         .reconcile wCb, .reconcile wCb]) "job1").length = 2 :=
  ⟨by decide, by decide⟩

/-- Claim C2 (amended): the exclusivity invariant — a completed job has
exactly one Result record and a job in any other status has zero — holds in
every state reachable from the empty store by event sequences that are
`orderly` for that job: at most one reconciliation is delivered for the job
and no dispatch-loop status write (the `processing` or `failed` write) for
it lands after that reconciliation; attempts increments may occur anywhere.
(Without this restriction the invariant fails: a duplicate completed report
leaves two Results, and a late dispatch status write demotes a completed
job to `processing` while its Result exists.) -/
theorem result_exclusivity_orderly (events : List Event) (jid : String)
    (ho : orderly jid events = true) :
    (store.getJob (run initialStore events) jid = none →
       ringtonesOf (run initialStore events) jid = []) ∧
    ∀ job, store.getJob (run initialStore events) jid = some job →
      (job.status = StatusCompleted →
         (ringtonesOf (run initialStore events) jid).length = 1) ∧
      (job.status ≠ StatusCompleted →
         ringtonesOf (run initialStore events) jid = []) :=
  exclusive_run jid events initialStore ho
    ⟨rfl, fun job hjob => by cases hjob⟩

/-- Witness for the amended C2 on a run whose attempts increment lands
after the reconciliation — a sequence the discipline permits. -/
theorem result_exclusivity_orderly_witness :
    orderly "job1"
      [.submit "job1" wReq, .reconcile wCb, .dispatchIncrement "job1"] = true ∧
    (ringtonesOf (run initialStore
        [.submit "job1" wReq, .reconcile wCb,
         .dispatchIncrement "job1"]) "job1").length = 1 :=
  ⟨by decide,
   ((result_exclusivity_orderly
       [.submit "job1" wReq, .reconcile wCb, .dispatchIncrement "job1"] "job1"
       (by decide)).2
     { wJob with status := StatusCompleted, updatedAt := 3, attempts := 1 }
     (by decide)).1 rfl⟩

/-- Counterexample to claim C3 as stated: with the dispatch goroutine's
success write landing after the callback was reconciled (an interleaving
the unguarded `UpdateJobStatus` permits), the job is observed `completed`
and afterwards `processing` — a regression out of a terminal state. -/
theorem terminal_regression_counterexample :
    statusOf (run initialStore [.submit "job1" wReq, .reconcile wCb]) "job1"
      = some StatusCompleted ∧
    statusOf (run initialStore
        [.submit "job1" wReq, .reconcile wCb, .dispatchSuccess "job1"]) "job1"
      = some StatusProcessing :=
  ⟨by decide, by decide⟩

/-- Claim C3 (amended): a job once observed in `completed` or `failed` can
later be observed in `processing` again (a late dispatch-success write, see
the counterexample), but never in `queued`: no store write of the core ever
sets an existing job back to `queued`, under any interleaving of the retry
loop's and reconciliation's writes. -/
theorem no_queued_after_terminal (s : StoreState) (jid : String) (job : Job)
    (events : List Event) (h1 : store.getJob s jid = some job)
    (h2 : job.status = StatusCompleted ∨ job.status = StatusFailed) :
    ∃ job2, store.getJob (run s events) jid = some job2 ∧
      job2.status ≠ StatusQueued :=
  nonqueued_run s jid job events h1
    (by rcases h2 with h | h <;> rw [h] <;> decide)

/-- Witness for the amended C3: the completed job of `wS1` stays away from
`queued` under a further dispatch write and a duplicate reconcile. -/
theorem no_queued_after_terminal_witness :
    store.getJob wS1 "job1" = some wJobDone ∧
    (wJobDone.status = StatusCompleted ∨ wJobDone.status = StatusFailed) ∧
    (∃ job2, store.getJob
        (run wS1 [.dispatchSuccess "job1", .reconcile wCb]) "job1"
        = some job2 ∧ job2.status ≠ StatusQueued) :=
  ⟨by decide, Or.inl rfl,
   no_queued_after_terminal wS1 "job1" wJobDone
     [.dispatchSuccess "job1", .reconcile wCb] (by decide) (Or.inl rfl)⟩

end RingTonic
